import Mathlib

/-!
Verification development for the SONLab FRET analysis core
(`GUI/fret_tab.py`, `GUI/bt_calculation.py`).

Channel images are embedded as total functions `ℕ → ℕ → ℝ` (with explicit
dimensions where an operation needs them); exact real arithmetic stands for
float64 arithmetic, and an `Option ℝ` pixel value models a possibly
non-finite float: `none` is NaN (the only non-finite value the modelled
operations can produce from finite inputs is a domain-error NaN from
`np.sqrt` of a negative number, or its propagation through a division).
-/

namespace FretTool

/-- Embedding of `np.sqrt` on float64: a strictly negative argument produces NaN
(modelled as `none`); otherwise the exact square root. -/
noncomputable def osqrt (x : ℝ) : Option ℝ :=
  if x < 0 then none else some (Real.sqrt x)

/-- Embedding of `np.divide(f, den, out=np.zeros_like(f), where=den!=0)`
at one pixel.
When `den` is NaN, the numpy predicate `den != 0` is true, so the division
runs and yields NaN; when `den = 0` the `out` value `0` is kept; otherwise
the quotient is taken. -/
noncomputable def npDivWhere (f : ℝ) (den : Option ℝ) : Option ℝ :=
  match den with
  | none => none
  | some d => if d = 0 then some 0 else some (f / d)

/-- One pixel of `FRETAnalysisTab.calculate_fret_efficiency`
(src/GUI/fret_tab.py lines 2149-2166): branch on the formula name, divide
with a zero fallback guarded only by `denominator != 0`, then scale by 100.
An unrecognised name leaves the initial `np.zeros_like` map untouched. -/
noncomputable def calcEffPixel (name : String) (fv dv av : ℝ) : Option ℝ :=
  let e : Option ℝ :=
    if name = "FRET/Donor" then npDivWhere fv (some dv)
    else if name = "FRET/Acceptor" then npDivWhere fv (some av)
    else if name = "Xia" then npDivWhere fv (osqrt (dv * av))
    else if name = "Gordon" then npDivWhere fv (some (dv * av))
    else if name = "PixFRET" then npDivWhere fv (some (dv + fv))
    else some 0
  e.map (· * 100)

/-- The map `calculate_fret_efficiency` returns on whole images. -/
noncomputable def calculate_fret_efficiency (f d a : ℕ → ℕ → ℝ)
    (name : String) : ℕ → ℕ → Option ℝ :=
  fun i j => calcEffPixel name (f i j) (d i j) (a i j)

/-- The denominator each of the five formula branches divides by. -/
noncomputable def formulaDenom (name : String) (fv dv av : ℝ) : Option ℝ :=
  if name = "FRET/Donor" then some dv
  else if name = "FRET/Acceptor" then some av
  else if name = "Xia" then osqrt (dv * av)
  else if name = "Gordon" then some (dv * av)
  else if name = "PixFRET" then some (dv + fv)
  else some 0

/-- The five supported formula names. -/
def formulaNames : List String :=
  ["FRET/Donor", "FRET/Acceptor", "Xia", "Gordon", "PixFRET"]

/-- C1 counterexample: at a strictly negative denominator the efficiency
map is not 0 — with `f = 1`, `d = -1` the FRET/Donor pixel is `-100`; and
with `a = -1` the Xia pixel is NaN (`none`), so NaN can leak into the map.
This falsifies both halves of the claim as stated. -/
theorem c1_counterexample :
    (-1 : ℝ) < 0 ∧
    calculate_fret_efficiency (fun _ _ => 1) (fun _ _ => -1) (fun _ _ => 1)
      "FRET/Donor" 0 0 = some (-100) ∧
    ((-100 : ℝ) ≠ 0) ∧
    calculate_fret_efficiency (fun _ _ => 1) (fun _ _ => 1) (fun _ _ => -1)
      "Xia" 0 0 = none := by
  refine ⟨by norm_num, ?_, by norm_num, ?_⟩
  · simp [calculate_fret_efficiency, calcEffPixel, npDivWhere]
  · simp [calculate_fret_efficiency, calcEffPixel, npDivWhere, osqrt]

/-- C1 (amended): for each of the five formulas, a pixel whose denominator
is exactly zero is exactly 0, and for nonnegative (finite) channel values —
the regime the pipeline produces after clamping — no pixel is NaN. -/
theorem c1_amended (f d a : ℕ → ℕ → ℝ) (name : String) (i j : ℕ)
    (hname : name ∈ formulaNames)
    (hf : 0 ≤ f i j) (hd : 0 ≤ d i j) (ha : 0 ≤ a i j) :
    (formulaDenom name (f i j) (d i j) (a i j) = some 0 →
      calculate_fret_efficiency f d a name i j = some 0) ∧
    (∃ r : ℝ, calculate_fret_efficiency f d a name i j = some r) := by
  have hda : 0 ≤ d i j * a i j := mul_nonneg hd ha
  have hdf : 0 ≤ d i j + f i j := add_nonneg hd hf
  simp only [formulaNames, List.mem_cons, List.not_mem_nil, or_false] at hname
  rcases hname with h | h | h | h | h
  all_goals subst h
  all_goals constructor
  all_goals simp only [calculate_fret_efficiency, calcEffPixel, formulaDenom,
    npDivWhere, osqrt, if_pos, if_neg, reduceIte]
  -- FRET/Donor
  · intro hden
    have : d i j = 0 := by simpa using hden
    simp [this]
  · by_cases h0 : d i j = 0 <;> simp [h0]
  -- FRET/Acceptor
  · intro hden
    have : a i j = 0 := by simpa using hden
    simp [this]
  · by_cases h0 : a i j = 0 <;> simp [h0]
  -- Xia
  · rw [if_neg (not_lt.mpr hda)]
    intro hden
    have : Real.sqrt (d i j * a i j) = 0 := by simpa using hden
    simp [this]
  · rw [if_neg (not_lt.mpr hda)]
    by_cases h0 : Real.sqrt (d i j * a i j) = 0 <;> simp [h0]
  -- Gordon
  · intro hden
    have : d i j * a i j = 0 := by simpa using hden
    simp [this]
  · by_cases h0 : d i j * a i j = 0 <;> simp [h0]
  -- PixFRET
  · intro hden
    have : d i j + f i j = 0 := by simpa using hden
    simp [this]
  · by_cases h0 : d i j + f i j = 0 <;> simp [h0]

/-- C1 witness: the amended theorem applied at the all-ones image with the
Xia formula. -/
theorem c1_amended_witness :
    ("Xia" ∈ formulaNames) ∧
    ((formulaDenom "Xia" ((1 : ℝ)) 1 1 = some 0 →
      calculate_fret_efficiency (fun _ _ => 1) (fun _ _ => 1)
        (fun _ _ => 1) "Xia" 0 0 = some 0) ∧
    (∃ r : ℝ, calculate_fret_efficiency (fun _ _ => 1) (fun _ _ => 1)
        (fun _ _ => 1) "Xia" 0 0 = some r)) :=
  ⟨by decide, c1_amended (fun _ _ => 1) (fun _ _ => 1) (fun _ _ => 1)
    "Xia" 0 0 (by decide) (by norm_num) (by norm_num) (by norm_num)⟩

/-- C10: an unrecognised formula name produces the untouched
`np.zeros_like` map — every pixel is exactly `some 0`, with no error. -/
theorem c10_unknown_formula (f d a : ℕ → ℕ → ℝ) (name : String)
    (hname : name ∉ formulaNames) (i j : ℕ) :
    calculate_fret_efficiency f d a name i j = some 0 := by
  simp only [formulaNames, List.mem_cons, List.not_mem_nil, or_false] at hname
  push_neg at hname
  obtain ⟨h1, h2, h3, h4, h5⟩ := hname
  simp [calculate_fret_efficiency, calcEffPixel, h1, h2, h3, h4, h5]

/-- C10 witness: the unknown name "Average" yields the zero pixel. -/
theorem c10_unknown_formula_witness :
    ("Average" ∉ formulaNames) ∧
    calculate_fret_efficiency (fun _ _ => 7) (fun _ _ => 3) (fun _ _ => 5)
      "Average" 2 3 = some 0 :=
  ⟨by decide, c10_unknown_formula (fun _ _ => 7) (fun _ _ => 3)
    (fun _ _ => 5) "Average" (by decide) 2 3⟩

/-- The component count handed to `GaussianMixture` in
`_plot_distribution_analysis` (src/GUI/fret_tab.py lines 4080-4084), as a
function of the number of detected peaks:
`n_components = min(max(1, len(peaks)), max_components)`, then forced to 2
when at least 2 peaks were found but the count came out as 1. -/
def chooseNComponents (numPeaks maxComponents : ℕ) : ℕ :=
  let n := min (max 1 numPeaks) maxComponents
  if 2 ≤ numPeaks ∧ n = 1 then 2 else n

/-- C9 counterexample: the GUI spinbox allows `max_components = 1`; with 2
detected peaks the override forces the component count to 2, which is
outside `[1, 1]`. -/
theorem c9_counterexample :
    1 ≤ 1 ∧ chooseNComponents 2 1 = 2 ∧ ¬ chooseNComponents 2 1 ≤ 1 := by
  decide

/-- C9 (amended): whenever `max_components ≥ 2` the chosen component count
lies in `[1, max_components]`; with `max_components = 1` the count is 1
when fewer than 2 peaks were detected and 2 (exceeding the bound)
otherwise. -/
theorem c9_amended (numPeaks maxComponents : ℕ) :
    (2 ≤ maxComponents →
      1 ≤ chooseNComponents numPeaks maxComponents ∧
      chooseNComponents numPeaks maxComponents ≤ maxComponents) ∧
    (maxComponents = 1 →
      chooseNComponents numPeaks maxComponents =
        if 2 ≤ numPeaks then 2 else 1) := by
  constructor
  · intro h2
    simp only [chooseNComponents]
    split <;> omega
  · intro h1
    subst h1
    simp only [chooseNComponents]
    split <;> split <;> omega

/-- C9 witness: the amended theorem applied at 3 peaks with
`max_components = 2` and at 3 peaks with `max_components = 1`. -/
theorem c9_amended_witness :
    ((2 ≤ 2 → 1 ≤ chooseNComponents 3 2 ∧ chooseNComponents 3 2 ≤ 2) ∧
      (2 = 1 → chooseNComponents 3 2 = if 2 ≤ 3 then 2 else 1)) ∧
    (1 = 1 → chooseNComponents 3 1 = if 2 ≤ 3 then 2 else 1) :=
  ⟨c9_amended 3 2, (c9_amended 3 1).2⟩

/-- The `load_and_prepare_image` frame handling (src/GUI/fret_tab.py lines
2102-2113): a stack is rejected (ValueError) when it has fewer than 4
frames; otherwise frames 0-3 are taken as label mask, FRET, Donor,
Acceptor (extra frames are ignored). Frames are embedded as a list of 2D
grids, so the `ndim == 3` part of the source check is inherent. -/
def loadStackFrames (stack : List (ℕ → ℕ → ℝ)) :
    Option ((ℕ → ℕ → ℝ) × (ℕ → ℕ → ℝ) × (ℕ → ℕ → ℝ) × (ℕ → ℕ → ℝ)) :=
  if stack.length < 4 then none
  else some (stack.getD 0 (fun _ _ => 0), stack.getD 1 (fun _ _ => 0),
    stack.getD 2 (fun _ _ => 0), stack.getD 3 (fun _ _ => 0))

/-- C7 counterexample: a 5-frame stack is accepted, not rejected as a
format error, contradicting "exactly 4 frames ... any other frame count is
rejected". -/
theorem c7_counterexample :
    (loadStackFrames [fun _ _ => 0, fun _ _ => 1, fun _ _ => 2,
      fun _ _ => 3, fun _ _ => 4]).isSome = true ∧
    ([fun _ _ => (0 : ℝ), fun _ _ => 1, fun _ _ => 2, fun _ _ => 3,
      fun _ _ => 4] : List (ℕ → ℕ → ℝ)).length ≠ 4 := by
  constructor
  · rfl
  · simp

/-- C7 (amended): a stack is rejected exactly when it has fewer than 4
frames, and an accepted stack's first four frames are interpreted as label
mask, FRET, Donor, Acceptor in that order. -/
theorem c7_amended (stack : List (ℕ → ℕ → ℝ)) :
    ((loadStackFrames stack).isSome = true ↔ 4 ≤ stack.length) ∧
    (4 ≤ stack.length →
      loadStackFrames stack = some (stack.getD 0 (fun _ _ => 0),
        stack.getD 1 (fun _ _ => 0), stack.getD 2 (fun _ _ => 0),
        stack.getD 3 (fun _ _ => 0))) := by
  constructor
  · unfold loadStackFrames
    split
    · simp
      omega
    · simp
      omega
  · intro h
    unfold loadStackFrames
    rw [if_neg (by omega)]

/-- C7 witness: the amended theorem applied to a concrete 4-frame stack. -/
theorem c7_amended_witness :
    ((loadStackFrames [fun _ _ => (1 : ℝ), fun _ _ => 2, fun _ _ => 3,
        fun _ _ => 4]).isSome = true ↔
      4 ≤ ([fun _ _ => (1 : ℝ), fun _ _ => 2, fun _ _ => 3,
        fun _ _ => 4] : List (ℕ → ℕ → ℝ)).length) ∧
    loadStackFrames [fun _ _ => (1 : ℝ), fun _ _ => 2, fun _ _ => 3,
        fun _ _ => 4] =
      some (fun _ _ => 1, fun _ _ => 2, fun _ _ => 3, fun _ _ => 4) :=
  ⟨(c7_amended _).1,
    (c7_amended [fun _ _ => (1 : ℝ), fun _ _ => 2, fun _ _ => 3,
      fun _ _ => 4]).2 (by simp)⟩

/-- A float64 value as the exponential-fit post-processing observes it:
either a finite value (exact rational), NaN, or a signed infinity. -/
inductive FVal
  | nan
  | pinf
  | ninf
  | fin (q : ℚ)
deriving DecidableEq

/-- Embedding of `np.isfinite` on a float value. -/
def FVal.isfinite : FVal → Bool
  | .fin _ => true
  | _ => false

/-- IEEE-754 `<=` on float values: any comparison with NaN is false. -/
def FVal.fle : FVal → FVal → Bool
  | .nan, _ => false
  | _, .nan => false
  | .ninf, _ => true
  | _, .pinf => true
  | .pinf, _ => false
  | _, .ninf => false
  | .fin x, .fin y => decide (x ≤ y)

/-- A float value is finite exactly when it is a `fin` rational. -/
theorem FVal.isfinite_iff (v : FVal) : v.isfinite = true ↔ ∃ q, v = .fin q := by
  cases v <;> simp [FVal.isfinite]

/-- The rejection test of `fit_and_plot` on the exponential coefficients
`popt = (a, k, b)` (src/GUI/bt_calculation.py lines 253-259):
`np.any(~np.isfinite(popt)) or popt[1] <= 0 or popt[0] <= 0`. -/
def rejectExponential (a k b : FVal) : Bool :=
  (!a.isfinite || !k.isfinite || !b.isfinite) ||
    k.fle (.fin 0) || a.fle (.fin 0)

/-- The Exponential entry of the `coeffs` dictionary returned by
`fit_and_plot`: `none` when `curve_fit` itself raised (modelled as a `none`
outcome) or when the sanity check rejected the coefficients; otherwise the
fitted triple unchanged (src/GUI/bt_calculation.py lines 241-264). -/
def fit_and_plot_exponential (popt : Option (FVal × FVal × FVal)) :
    Option (FVal × FVal × FVal) :=
  match popt with
  | none => none
  | some (a, k, b) => if rejectExponential a k b then none else some (a, k, b)

/-- C4: (i) a fit outcome with any non-finite coefficient, or `a <= 0`, or
`k <= 0` (IEEE comparisons), is recorded as failed (`none`) and never
returned; (ii) any accepted outcome, given the `curve_fit` bounds contract
`0 <= b <= 1`, satisfies `a > 0`, `k > 0` and `0 <= b <= 1` as finite
reals. -/
theorem c4_exponential_guard (a k b : FVal) :
    ((a.isfinite = false ∨ k.isfinite = false ∨ b.isfinite = false ∨
        a.fle (.fin 0) = true ∨ k.fle (.fin 0) = true) →
      fit_and_plot_exponential (some (a, k, b)) = none) ∧
    (((FVal.fin 0).fle b = true ∧ b.fle (.fin 1) = true) →
      ∀ a' k' b', fit_and_plot_exponential (some (a, k, b)) =
          some (a', k', b') →
        ∃ qa qk qb : ℚ, a' = .fin qa ∧ k' = .fin qk ∧ b' = .fin qb ∧
          0 < qa ∧ 0 < qk ∧ 0 ≤ qb ∧ qb ≤ 1) := by
  constructor
  · intro h
    simp only [fit_and_plot_exponential]
    rw [if_pos]
    simp only [rejectExponential, Bool.or_eq_true, Bool.not_eq_true']
    rcases h with h | h | h | h | h
    all_goals simp [h]
  · rintro ⟨hb0, hb1⟩ a' k' b' h
    rcases a with _ | _ | _ | qa <;> rcases k with _ | _ | _ | qk <;>
      rcases b with _ | _ | _ | qb <;>
      simp [fit_and_plot_exponential, rejectExponential, FVal.isfinite,
        FVal.fle] at h hb0 hb1 ⊢
    obtain ⟨⟨hk0, ha0⟩, h1, h2, h3⟩ := h
    exact ⟨qa, h1.symm, qk, h2.symm, qb, h3.symm, ha0, hk0, hb0, hb1⟩

/-- C4 witness: the guard theorem applied at the rejected triple
`(0, 1, 0)` (first part, `a <= 0`) and at the accepted triple
`(2, 1, 1)` (second part). -/
theorem c4_exponential_guard_witness :
    (fit_and_plot_exponential (some (.fin 0, .fin 1, .fin 0)) = none) ∧
    (∃ qa qk qb : ℚ,
      FVal.fin 2 = .fin qa ∧ FVal.fin 1 = .fin qk ∧
      FVal.fin 1 = .fin qb ∧
      0 < qa ∧ 0 < qk ∧ 0 ≤ qb ∧ qb ≤ 1) :=
  ⟨(c4_exponential_guard (.fin 0) (.fin 1) (.fin 0)).1
      (by decide),
    (c4_exponential_guard (.fin 2) (.fin 1) (.fin 1)).2
      (by decide) (.fin 2) (.fin 1) (.fin 1) (by decide)⟩

/-- The Constant entry of the `coeffs` dictionary returned by
`fit_and_plot` (src/GUI/bt_calculation.py lines 198-230): filter to pairs
with positive intensity and positive ratio, optionally replace both arrays
by the subset at the indices drawn by the seeded RNG (`np.random.choice`
with seed 42, abstracted as the `choice` function: `choice n s` is the
list of drawn indices), then `np.mean(y_data)`. An empty population makes
`x_data.min()` raise (ValueError) before the mean is computed, modelled as
`none`. -/
def fit_and_plot_constant (x y : List ℚ) (useSampling : Bool)
    (sampleSize : ℕ) (choice : ℕ → ℕ → List ℕ) : Option ℚ :=
  let kept := (x.zip y).filter fun p => decide (0 < p.1) && decide (0 < p.2)
  let xd := kept.map Prod.fst
  let yd := kept.map Prod.snd
  let doSample := useSampling && decide (sampleSize < xd.length)
  let idx := choice xd.length sampleSize
  let xd2 := if doSample then idx.map (fun i => xd.getD i 0) else xd
  let yd2 := if doSample then idx.map (fun i => yd.getD i 0) else yd
  if xd2.isEmpty then none else some (yd2.sum / yd2.length)

/-- The population the specification says the Constant fit averages: the
ratio samples remaining after restricting to positive pairs and, when
sampling applies, after drawing the fixed-size subset. -/
def constantFitPopulation (x y : List ℚ) (useSampling : Bool)
    (sampleSize : ℕ) (choice : ℕ → ℕ → List ℕ) : List ℚ :=
  let kept := ((x.zip y).filter fun p =>
    decide (0 < p.1) && decide (0 < p.2)).map Prod.snd
  if useSampling && decide (sampleSize < kept.length) then
    (choice kept.length sampleSize).map (fun i => kept.getD i 0)
  else kept

/-- C5: whenever the selected population is non-empty, the Constant
coefficient returned by `fit_and_plot` is exactly its arithmetic mean. -/
theorem c5_constant_mean (x y : List ℚ) (useSampling : Bool)
    (sampleSize : ℕ) (choice : ℕ → ℕ → List ℕ)
    (hne : constantFitPopulation x y useSampling sampleSize choice ≠ []) :
    fit_and_plot_constant x y useSampling sampleSize choice =
      some ((constantFitPopulation x y useSampling sampleSize choice).sum /
        (constantFitPopulation x y useSampling sampleSize choice).length) := by
  unfold constantFitPopulation at hne
  unfold fit_and_plot_constant constantFitPopulation
  simp only [List.length_map] at hne ⊢
  by_cases hs : (useSampling && decide (sampleSize <
      ((x.zip y).filter fun p =>
        decide (0 < p.1) && decide (0 < p.2)).length)) = true
  · simp only [hs, if_true] at hne ⊢
    rw [if_neg]
    simp only [List.isEmpty_eq_true, List.map_eq_nil_iff]
    intro h
    apply hne
    simp [h]
  · simp only [Bool.not_eq_true] at hs
    simp only [hs, Bool.false_eq_true, if_false] at hne ⊢
    rw [if_neg]
    simp only [List.isEmpty_eq_true, List.map_eq_nil_iff]
    intro h
    apply hne
    simp [h]

/-- C5 witness: intensities `[1, 2, -1]`, ratios `[1/2, 1/4, 1/8]` without
sampling keep the first two pairs; the Constant coefficient is their mean
`3/8`. -/
theorem c5_constant_mean_witness :
    constantFitPopulation [1, 2, -1] [1/2, 1/4, 1/8] false 0
        (fun _ _ => []) ≠ [] ∧
    fit_and_plot_constant [1, 2, -1] [1/2, 1/4, 1/8] false 0
        (fun _ _ => []) =
      some ((constantFitPopulation [1, 2, -1] [1/2, 1/4, 1/8] false 0
          (fun _ _ => [])).sum /
        (constantFitPopulation [1, 2, -1] [1/2, 1/4, 1/8] false 0
          (fun _ _ => [])).length) :=
  ⟨by simp [constantFitPopulation], c5_constant_mean _ _ _ _ _
    (by simp [constantFitPopulation])⟩

/-- scipy's `reflect` boundary mode (`(d c b a | a b c d | d c b a)`):
half-sample symmetric extension, period `2*len`. -/
def reflectIdx (len : ℕ) (z : ℤ) : ℕ :=
  let r := (z % (2 * (len : ℤ))).toNat
  if r < len then r else 2 * len - 1 - r

/-- One pass of `scipy.ndimage.uniform_filter` along axis 0: the mean over
the window `[i - k/2, i - k/2 + k - 1]` with reflected boundary. -/
def uf1dRows {α : Type} [Field α] (k m : ℕ) (g : ℕ → ℕ → α) :
    ℕ → ℕ → α :=
  fun i j =>
    (∑ t ∈ Finset.range k,
      g (reflectIdx m ((i : ℤ) + t - ((k / 2 : ℕ) : ℤ))) j) / k

/-- The axis-1 pass of `scipy.ndimage.uniform_filter`. -/
def uf1dCols {α : Type} [Field α] (k n : ℕ) (g : ℕ → ℕ → α) :
    ℕ → ℕ → α :=
  fun i j =>
    (∑ t ∈ Finset.range k,
      g i (reflectIdx n ((j : ℤ) + t - ((k / 2 : ℕ) : ℤ)))) / k

/-- Embedding of `scipy.ndimage.uniform_filter(image, size=k,
mode='reflect')` on a 2D
image: the separable composition of the two 1D uniform passes, as scipy
computes it. -/
def uniform_filter {α : Type} [Field α] (k m n : ℕ)
    (g : ℕ → ℕ → α) : ℕ → ℕ → α :=
  uf1dCols k n (uf1dRows k m g)

/-- The local mean over a square sliding window of side `k` centred (with
the  `k/2` origin convention) at `(i, j)`, with edge-reflected boundary:
the form in which the specification describes the local-mean field. -/
def squareWindowMean {α : Type} [Field α] (k m n : ℕ)
    (g : ℕ → ℕ → α) (i j : ℕ) : α :=
  (∑ t ∈ Finset.range k, ∑ s ∈ Finset.range k,
    g (reflectIdx m ((i : ℤ) + t - ((k / 2 : ℕ) : ℤ)))
      (reflectIdx n ((j : ℤ) + s - ((k / 2 : ℕ) : ℤ)))) / ((k : α) * k)

/-- The separable two-pass uniform filter equals the square-window mean. -/
theorem uniform_filter_eq_squareWindowMean {α : Type} [Field α]
    (k m n : ℕ) (g : ℕ → ℕ → α) (i j : ℕ) :
    uniform_filter k m n g i j = squareWindowMean k m n g i j := by
  unfold uniform_filter uf1dCols uf1dRows squareWindowMean
  rw [← Finset.sum_div, div_div]
  rw [Finset.sum_comm]

/-- Embedding of `np.min` over a finite collection of rationals (the source raises on an
empty array; the default 0 is never used under the non-empty-image
hypothesis). -/
def npMinQ (s : Finset ℚ) : ℚ :=
  if h : s.Nonempty then s.min' h else 0

/-- On a non-empty collection, `npMinQ` attains its value. -/
theorem npMinQ_mem (s : Finset ℚ) (h : s.Nonempty) : npMinQ s ∈ s := by
  unfold npMinQ
  rw [dif_pos h]
  exact s.min'_mem h

/-- On a non-empty collection, `npMinQ` is a lower bound. -/
theorem npMinQ_le (s : Finset ℚ) (h : s.Nonempty) {x : ℚ} (hx : x ∈ s) :
    npMinQ s ≤ x := by
  unfold npMinQ
  rw [dif_pos h]
  exact s.min'_le x hx

/-- Embedding of `FRETAnalysisTab.subtract_background`
(src/GUI/fret_tab.py lines
2140-2147): local means by uniform filter, global minimum of the
local-mean field as the scalar background, subtraction clamped at zero;
returns the corrected image and the scalar. -/
def subtract_background (k m n : ℕ) (g : ℕ → ℕ → ℚ) : (ℕ → ℕ → ℚ) × ℚ :=
  let localMeans := uniform_filter k m n g
  let minMean := npMinQ ((Finset.range m ×ˢ Finset.range n).image
    fun p => localMeans p.1 p.2)
  (fun i j => max (g i j - minMean) 0, minMean)

/-- C6: on a non-empty image the background-subtracted image has no
negative values, the returned scalar is the minimum over all window
positions of the square-window local mean with edge-reflected boundary,
and the returned image is the input minus that scalar clamped at zero. -/
theorem c6_background (k m n : ℕ) (g : ℕ → ℕ → ℚ)
    (hm : 0 < m) (hn : 0 < n) :
    (∀ i j, 0 ≤ (subtract_background k m n g).1 i j) ∧
    (∃ p ∈ Finset.range m ×ˢ Finset.range n,
      (subtract_background k m n g).2 = squareWindowMean k m n g p.1 p.2) ∧
    (∀ p ∈ Finset.range m ×ˢ Finset.range n,
      (subtract_background k m n g).2 ≤ squareWindowMean k m n g p.1 p.2) ∧
    (∀ i j, (subtract_background k m n g).1 i j =
      max (g i j - (subtract_background k m n g).2) 0) := by
  have hreg : (Finset.range m ×ˢ Finset.range n).Nonempty :=
    Finset.Nonempty.product (Finset.nonempty_range_iff.mpr hm.ne')
      (Finset.nonempty_range_iff.mpr hn.ne')
  have himg : ((Finset.range m ×ˢ Finset.range n).image
      fun p => uniform_filter k m n g p.1 p.2).Nonempty :=
    hreg.image _
  have e : (subtract_background k m n g).2 =
      npMinQ ((Finset.range m ×ˢ Finset.range n).image
        fun p => uniform_filter k m n g p.1 p.2) := rfl
  refine ⟨fun i j => le_max_right _ _, ?_, ?_, fun i j => rfl⟩
  · have hmem := npMinQ_mem _ himg
    rw [Finset.mem_image] at hmem
    obtain ⟨p, hp, hpeq⟩ := hmem
    refine ⟨p, hp, ?_⟩
    rw [e, ← hpeq, uniform_filter_eq_squareWindowMean]
  · intro p hp
    rw [e, ← uniform_filter_eq_squareWindowMean]
    exact npMinQ_le _ himg (Finset.mem_image_of_mem _ hp)

/-- C6 witness: the theorem applied to the constant 1x1 image with kernel
size 1. -/
theorem c6_background_witness :
    0 < 1 ∧
    ((∀ i j, 0 ≤ (subtract_background 1 1 1 (fun _ _ => 3)).1 i j) ∧
    (∃ p ∈ Finset.range 1 ×ˢ Finset.range 1,
      (subtract_background 1 1 1 (fun _ _ => 3)).2 =
        squareWindowMean 1 1 1 (fun _ _ => 3) p.1 p.2) ∧
    (∀ p ∈ Finset.range 1 ×ˢ Finset.range 1,
      (subtract_background 1 1 1 (fun _ _ => 3)).2 ≤
        squareWindowMean 1 1 1 (fun _ _ => 3) p.1 p.2) ∧
    (∀ i j, (subtract_background 1 1 1 (fun _ _ => 3)).1 i j =
      max ((3 : ℚ) - (subtract_background 1 1 1 (fun _ _ => 3)).2) 0)) :=
  ⟨Nat.one_pos, c6_background 1 1 1 (fun _ _ => 3) Nat.one_pos Nat.one_pos⟩

/-- Embedding of `FRETAnalysisTab.apply_correction`
(src/GUI/fret_tab.py lines
2131-2138): evaluate the bleed-through model on the image; an unmatched
model name — including the initial `None` before any calibration transfer
(line 48) — falls through to `return np.zeros_like(image)`. -/
noncomputable def apply_correction (image : ℕ → ℕ → ℝ)
    (model : Option String) (coeffs : List ℝ) : ℕ → ℕ → ℝ :=
  if model = some "Constant" then
    fun i j => image i j * coeffs.getD 0 0
  else if model = some "Linear" then
    fun i j => image i j * (coeffs.getD 0 0 * image i j + coeffs.getD 1 0)
  else if model = some "Exponential" then
    fun i j => image i j *
      (coeffs.getD 0 0 * Real.exp (-(coeffs.getD 1 0) * image i j) +
        coeffs.getD 2 0)
  else fun _ _ => 0

/-- The correction step of `load_and_prepare_image` (src/GUI/fret_tab.py
lines 2125-2128): subtract both bleed images from the FRET channel and
clamp at zero. -/
noncomputable def load_and_prepare_corrected_fret (fret donor acceptor :
    ℕ → ℕ → ℝ) (donorModel acceptorModel : Option String)
    (donorCoeffs acceptorCoeffs : List ℝ) : ℕ → ℕ → ℝ :=
  fun i j =>
    max (fret i j - apply_correction donor donorModel donorCoeffs i j -
      apply_correction acceptor acceptorModel acceptorCoeffs i j) 0

/-- C3 counterexample: with both models unset (`None`, the initial state),
`apply_correction` returns the all-zero bleed image and
`load_and_prepare_image` proceeds, returning the FRET channel unchanged —
no error is raised and the correction is silently a zero correction. -/
theorem c3_counterexample :
    apply_correction (fun _ _ => 3) none [] 0 0 = 0 ∧
    load_and_prepare_corrected_fret (fun _ _ => 7) (fun _ _ => 3)
      (fun _ _ => 4) none none [] [] 0 0 = 7 := by
  constructor
  · simp [apply_correction]
  · simp [load_and_prepare_corrected_fret, apply_correction]

/-- C3 (amended): when the requested model is not one of the three
calibrated forms (in particular when it is the initial `None`), no error
is raised: the bleed image is identically zero and the prepared FRET
channel is just the clamped uncorrected channel. -/
theorem c3_amended (image fret donor acceptor : ℕ → ℕ → ℝ)
    (model : Option String) (coeffs dc ac : List ℝ)
    (dm am : Option String)
    (hm : model ≠ some "Constant" ∧ model ≠ some "Linear" ∧
      model ≠ some "Exponential")
    (hdm : dm ≠ some "Constant" ∧ dm ≠ some "Linear" ∧
      dm ≠ some "Exponential")
    (ham : am ≠ some "Constant" ∧ am ≠ some "Linear" ∧
      am ≠ some "Exponential") (i j : ℕ) :
    apply_correction image model coeffs i j = 0 ∧
    load_and_prepare_corrected_fret fret donor acceptor dm am dc ac i j =
      max (fret i j) 0 := by
  obtain ⟨h1, h2, h3⟩ := hm
  obtain ⟨d1, d2, d3⟩ := hdm
  obtain ⟨a1, a2, a3⟩ := ham
  constructor
  · simp [apply_correction, h1, h2, h3]
  · simp [load_and_prepare_corrected_fret, apply_correction,
      d1, d2, d3, a1, a2, a3]

/-- C3 witness: the amended theorem applied with both models `None` on
concrete channels. -/
theorem c3_amended_witness :
    ((none ≠ some "Constant" ∧ none ≠ some "Linear" ∧
      none ≠ some "Exponential") ∧
    (apply_correction (fun _ _ => 3) none [] 1 1 = 0 ∧
      load_and_prepare_corrected_fret (fun _ _ => 7) (fun _ _ => 3)
        (fun _ _ => 4) none none [] [] 1 1 = max ((7 : ℝ)) 0)) :=
  ⟨⟨by decide, by decide, by decide⟩,
    c3_amended (fun _ _ => 3) (fun _ _ => 7) (fun _ _ => 3) (fun _ _ => 4)
      none [] [] [] none none
      ⟨by decide, by decide, by decide⟩ ⟨by decide, by decide, by decide⟩
      ⟨by decide, by decide, by decide⟩ 1 1⟩

/-- The index set of an `m × n` image array. -/
def gridRegion (m n : ℕ) : Finset (ℕ × ℕ) :=
  Finset.range m ×ˢ Finset.range n

/-- The per-pixel test `np.isfinite(eff_map) & (eff_map > 0)` on a stored
efficiency value (`none` models a non-finite float). -/
def qualPos : Option ℚ → Bool
  | some v => decide (0 < v)
  | none => false

/-- The numeric value of a stored pixel; only applied where `qualPos`
holds, so the `none` default is never used. -/
def effVal (o : Option ℚ) : ℚ := o.getD 0

/-- One output row of the aggregate statistics table. -/
structure CellRow where
  label : ℕ
  avgAll : ℚ
  avgInBand : ℚ
  pctBelow : ℚ
  pctAbove : ℚ
  pixelCount : ℕ
deriving DecidableEq

/-- The row list built by `update_aggregate_stats_table` for one image
(src/GUI/fret_tab.py lines 3091-3116): for each positive label of
`np.unique` (ascending), the pixels of that cell that are finite and
strictly positive; a cell with none is skipped (`continue`), otherwise the
mean over all such pixels, the mean over the in-band subset (0 when that
subset is empty), the percentages below/above the display thresholds, and
the pixel count. -/
def update_aggregate_stats_rows (m n : ℕ) (eff : ℕ → ℕ → Option ℚ)
    (labels : ℕ → ℕ → ℕ) (lowerThresh upperThresh : ℚ) : List CellRow :=
  let reg := gridRegion m n
  let ids := (((reg.image fun p => labels p.1 p.2).filter
    fun l => 0 < l).sort (· ≤ ·))
  ids.filterMap fun lbl =>
    let nz := reg.filter fun p =>
      labels p.1 p.2 = lbl ∧ qualPos (eff p.1 p.2) = true
    if nz.card = 0 then none
    else
      let inB := nz.filter fun p =>
        lowerThresh ≤ effVal (eff p.1 p.2) ∧
        effVal (eff p.1 p.2) ≤ upperThresh
      some {
        label := lbl
        avgAll := (∑ p ∈ nz, effVal (eff p.1 p.2)) / nz.card
        avgInBand := if 0 < inB.card then
          (∑ p ∈ inB, effVal (eff p.1 p.2)) / inB.card else 0
        pctBelow := ((nz.filter fun p =>
          effVal (eff p.1 p.2) < lowerThresh).card : ℚ) / nz.card * 100
        pctAbove := ((nz.filter fun p =>
          upperThresh < effVal (eff p.1 p.2)).card : ℚ) / nz.card * 100
        pixelCount := nz.card }

/-- C8: a label whose set of finite, strictly positive pixels is empty
contributes no row to the aggregate statistics — the cell is omitted, not
reported as zero. -/
theorem c8_empty_cell_omitted (m n : ℕ) (eff : ℕ → ℕ → Option ℚ)
    (labels : ℕ → ℕ → ℕ) (lowerThresh upperThresh : ℚ) (lbl : ℕ)
    (hempty : ((gridRegion m n).filter fun p =>
      labels p.1 p.2 = lbl ∧ qualPos (eff p.1 p.2) = true).card = 0) :
    ∀ row ∈ update_aggregate_stats_rows m n eff labels
      lowerThresh upperThresh, row.label ≠ lbl := by
  intro row hrow hlbl
  unfold update_aggregate_stats_rows at hrow
  rw [List.mem_filterMap] at hrow
  obtain ⟨l, _, hfm⟩ := hrow
  by_cases hc : ((gridRegion m n).filter fun p =>
      labels p.1 p.2 = l ∧ qualPos (eff p.1 p.2) = true).card = 0
  · rw [if_pos hc] at hfm
    exact Option.noConfusion hfm
  · rw [if_neg hc] at hfm
    have hl : row.label = l := by
      have := (Option.some.injEq _ _).mp hfm
      rw [← this]
    rw [hl] at hlbl
    rw [hlbl] at hc
    exact hc hempty

/-- C8 witness: a 1x1 image whose single pixel has efficiency 0 under
label 1 yields no row for label 1. -/
theorem c8_empty_cell_omitted_witness :
    (((gridRegion 1 1).filter fun p =>
      (fun _ _ => 1) p.1 p.2 = 1 ∧
        qualPos ((fun _ _ => some (0 : ℚ)) p.1 p.2) = true).card = 0) ∧
    (∀ row ∈ update_aggregate_stats_rows 1 1 (fun _ _ => some (0 : ℚ))
      (fun _ _ => 1) 0 100, row.label ≠ 1) :=
  ⟨by decide, c8_empty_cell_omitted 1 1 (fun _ _ => some 0)
    (fun _ _ => 1) 0 100 1 (by decide)⟩

/-- The inputs of one `run_analysis` iteration that determine the final
inclusion mask: image dimensions, label mask, prepared channels, scalar
backgrounds, and the filter-stage settings read from the GUI controls. -/
structure AnalysisParams where
  m : ℕ
  n : ℕ
  labels : ℕ → ℕ → ℕ
  fret : ℕ → ℕ → ℝ
  donor : ℕ → ℕ → ℝ
  acceptor : ℕ → ℕ → ℝ
  bgDonor : ℝ
  bgAcceptor : ℝ
  pixfretEnabled : Bool
  pixfretFactor : ℝ
  ratioThresh : ℝ
  cellBandEnabled : Bool
  cellLower : ℝ
  cellUpper : ℝ
  formulas : List String

/-- Embedding of `FRETAnalysisTab.pixfret_threshold` with the default
`use_local_averaging=True` (src/GUI/fret_tab.py lines 1891-1937):
background-subtract and clamp each channel, smooth with a 3x3 uniform
filter, and require both smoothed channels above `background * factor` and
the geometric mean of the unsmoothed subtracted channels above
`sqrt(bg_donor * bg_acceptor) * factor`. -/
noncomputable def pixfret_threshold (P : AnalysisParams) : ℕ → ℕ → Bool :=
  let donorSub := fun i j => max (P.donor i j - P.bgDonor) 0
  let acceptorSub := fun i j => max (P.acceptor i j - P.bgAcceptor) 0
  let donorLocal := uniform_filter 3 P.m P.n donorSub
  let acceptorLocal := uniform_filter 3 P.m P.n acceptorSub
  fun i j =>
    decide (P.bgDonor * P.pixfretFactor < donorLocal i j) &&
    decide (P.bgAcceptor * P.pixfretFactor < acceptorLocal i j) &&
    decide (Real.sqrt (P.bgDonor * P.bgAcceptor) * P.pixfretFactor <
      Real.sqrt (donorSub i j * acceptorSub i j))

/-- The per-pixel donor/acceptor quotient of the ratio filter
(src/GUI/fret_tab.py line 1985): `np.divide` with `out=0` and
`where=acceptor>0`. -/
noncomputable def donorAcceptorQuot (P : AnalysisParams) : ℕ → ℕ → ℝ :=
  fun i j =>
    if 0 < P.acceptor i j then P.donor i j / P.acceptor i j else 0

/-- The `valid_ratio` mask (src/GUI/fret_tab.py lines 1987-1989): quotient
within `[1/threshold, threshold]`, or the pixel is outside every cell. -/
noncomputable def validRatioMask (P : AnalysisParams) : ℕ → ℕ → Bool :=
  fun i j =>
    (decide (donorAcceptorQuot P i j ≤ P.ratioThresh) &&
      decide (1 / P.ratioThresh ≤ donorAcceptorQuot P i j)) ||
    decide (P.labels i j = 0)

/-- The mask `label_mask = labels > 0` (src/GUI/fret_tab.py line 1968). -/
noncomputable def labelMaskOf (P : AnalysisParams) : ℕ → ℕ → Bool :=
  fun i j => decide (0 < P.labels i j)

/-- The inclusion mask after the PixFRET and ratio stages
(src/GUI/fret_tab.py lines 1969-2001). When the ratio threshold is not
positive the source resets `final_mask` to the bare label mask, discarding
a PixFRET mask computed before it. -/
noncomputable def step3Mask (P : AnalysisParams) : ℕ → ℕ → Bool :=
  let base := if P.pixfretEnabled then
      fun i j => labelMaskOf P i j && pixfret_threshold P i j
    else labelMaskOf P
  if 0 < P.ratioThresh then
    fun i j => base i j && validRatioMask P i j
  else labelMaskOf P

/-- The labels recorded as wholly excluded by the ratio filter
(src/GUI/fret_tab.py lines 1993-1999): positive labels none of whose
pixels survive the mask so far; empty when the ratio stage is off. -/
noncomputable def excludedRatioLabels (P : AnalysisParams) : Finset ℕ :=
  if 0 < P.ratioThresh then
    ((gridRegion P.m P.n).image fun p => P.labels p.1 p.2).filter fun lbl =>
      0 < lbl ∧ ∀ p ∈ gridRegion P.m P.n,
        P.labels p.1 p.2 = lbl → step3Mask P p.1 p.2 = false
  else ∅

/-- The provisional efficiency map used by the cell-band stage
(src/GUI/fret_tab.py lines 2007-2012): the first selected formula (or
FRET/Donor), with pixels outside the mask so far set to 0. -/
noncomputable def maskedTempEff (P : AnalysisParams) : ℕ → ℕ → Option ℝ :=
  fun i j =>
    if step3Mask P i j = true then
      calculate_fret_efficiency P.fret P.donor P.acceptor
        (P.formulas.headD "FRET/Donor") i j
    else some 0

/-- Embedding of `np.isfinite(vals) & (vals > 0)` on a provisional-map
value. -/
noncomputable def qualPosR : Option ℝ → Bool
  | some v => decide (0 < v)
  | none => false

/-- The finite, strictly positive provisional-map pixels of one cell
(src/GUI/fret_tab.py lines 2018-2020). -/
noncomputable def cellQualifying (P : AnalysisParams) (lbl : ℕ) :
    Finset (ℕ × ℕ) :=
  (gridRegion P.m P.n).filter fun p =>
    P.labels p.1 p.2 = lbl ∧ qualPosR (maskedTempEff P p.1 p.2) = true

/-- The mean provisional efficiency of one cell over its qualifying
pixels (src/GUI/fret_tab.py line 2023). -/
noncomputable def cellMeanEff (P : AnalysisParams) (lbl : ℕ) : ℝ :=
  (∑ p ∈ cellQualifying P lbl, (maskedTempEff P p.1 p.2).getD 0) /
    (cellQualifying P lbl).card

/-- Whether the cell-band loop removes the whole cell `lbl`
(src/GUI/fret_tab.py lines 2015-2026): positive label, not already
recorded as ratio-excluded, at least one qualifying pixel, and mean
outside `[cell_lower, cell_upper]`. -/
noncomputable def cellBandExcluded (P : AnalysisParams) (lbl : ℕ) : Bool :=
  decide (0 < lbl) && !(decide (lbl ∈ excludedRatioLabels P)) &&
  decide (0 < (cellQualifying P lbl).card) &&
  (decide (cellMeanEff P lbl < P.cellLower) ||
    decide (P.cellUpper < cellMeanEff P lbl))

/-- The final inclusion mask produced by `run_analysis`
(src/GUI/fret_tab.py lines 1967-2026): the PixFRET/ratio mask, minus every
pixel of each cell the cell-band stage excludes when that stage is
enabled. -/
noncomputable def run_analysis_final_mask (P : AnalysisParams) :
    ℕ → ℕ → Bool :=
  fun i j =>
    if P.cellBandEnabled then
      step3Mask P i j && !(cellBandExcluded P (P.labels i j))
    else step3Mask P i j

/-- Conjunction can only shrink a Boolean mask. -/
theorem bool_and_le_left (a b : Bool) : (a && b) ≤ a := by
  cases a <;> cases b <;> simp

/-- C2 (amended): with the cell-band stage disabled, enabling the ratio
stage or the PixFRET stage can only remove pixels; and enabling the
cell-band stage itself can only remove pixels, under any configuration of
the other stages. (With the cell-band stage enabled, toggling the other
stages is not monotone — see the counterexample — because the band's
per-cell means are computed over the already-filtered provisional map.) -/
theorem c2_amended (P : AnalysisParams) (i j : ℕ) :
    (run_analysis_final_mask { P with cellBandEnabled := false } i j ≤
      run_analysis_final_mask
        { P with cellBandEnabled := false, ratioThresh := 0 } i j) ∧
    (run_analysis_final_mask
        { P with cellBandEnabled := false, pixfretEnabled := true } i j ≤
      run_analysis_final_mask
        { P with cellBandEnabled := false, pixfretEnabled := false } i j) ∧
    (run_analysis_final_mask { P with cellBandEnabled := true } i j ≤
      run_analysis_final_mask { P with cellBandEnabled := false } i j) := by
  refine ⟨?_, ?_, ?_⟩
  · have h1 : run_analysis_final_mask { P with cellBandEnabled := false }
        i j = step3Mask P i j := rfl
    have h2 : run_analysis_final_mask
        { P with cellBandEnabled := false, ratioThresh := 0 } i j =
        step3Mask { P with ratioThresh := 0 } i j := rfl
    rw [h1, h2]
    have h3 : step3Mask { P with ratioThresh := 0 } i j =
        labelMaskOf P i j := by
      simp only [step3Mask]
      rw [if_neg (lt_irrefl (0 : ℝ))]
      rfl
    rw [h3]
    simp only [step3Mask]
    split
    · split
      · exact le_trans (bool_and_le_left _ _) (bool_and_le_left _ _)
      · exact bool_and_le_left _ _
    · exact le_refl _
  · have h1 : run_analysis_final_mask
        { P with cellBandEnabled := false, pixfretEnabled := true } i j =
        step3Mask { P with pixfretEnabled := true } i j := rfl
    have h2 : run_analysis_final_mask
        { P with cellBandEnabled := false, pixfretEnabled := false } i j =
        step3Mask { P with pixfretEnabled := false } i j := rfl
    rw [h1, h2]
    simp only [step3Mask]
    split
    · have hb : ∀ a b v : Bool, ((a && b) && v) ≤ (a && v) := by
        intro a b v
        cases a <;> cases b <;> cases v <;> simp
      exact hb _ _ _
    · exact le_refl _
  · have h1 : run_analysis_final_mask { P with cellBandEnabled := true }
        i j = (step3Mask P i j &&
        !(cellBandExcluded { P with cellBandEnabled := true }
          (P.labels i j))) := rfl
    have h2 : run_analysis_final_mask { P with cellBandEnabled := false }
        i j = step3Mask P i j := rfl
    rw [h1, h2]
    exact bool_and_le_left _ _

/-- A concrete 1x2 analysis input: one cell (label 1) covering both
pixels; pixel (0,0) has donor 10, acceptor 10, FRET 1/2 (efficiency 5%),
pixel (0,1) has donor 200, acceptor 5 (quotient 40), FRET 100
(efficiency 50%); PixFRET off, ratio threshold 10, cell band [0, 10]
enabled, formula FRET/Donor. -/
noncomputable def cexBase : AnalysisParams where
  m := 1
  n := 2
  labels := fun _ _ => 1
  fret := fun _ j => if j = 0 then 1/2 else 100
  donor := fun _ j => if j = 0 then 10 else 200
  acceptor := fun _ j => if j = 0 then 10 else 5
  bgDonor := 0
  bgAcceptor := 0
  pixfretEnabled := false
  pixfretFactor := 1
  ratioThresh := 10
  cellBandEnabled := true
  cellLower := 0
  cellUpper := 10
  formulas := ["FRET/Donor"]

/-- The same input with the ratio-threshold stage disabled. -/
noncomputable def cexZero : AnalysisParams :=
  { cexBase with ratioThresh := 0 }

/-- With the ratio stage on, pixel (0,0) passes it (quotient 1). -/
theorem cex_step3_00 : step3Mask cexBase 0 0 = true := by
  simp only [step3Mask, labelMaskOf, validRatioMask, donorAcceptorQuot,
    cexBase]
  norm_num
  simp [labelMaskOf]

/-- With the ratio stage on, pixel (0,1) fails it (quotient 40 > 10). -/
theorem cex_step3_01 : step3Mask cexBase 0 1 = false := by
  simp only [step3Mask, labelMaskOf, validRatioMask, donorAcceptorQuot,
    cexBase]
  norm_num

/-- With the ratio stage off, both pixels pass (label mask only). -/
theorem cex_step3_zero (j : ℕ) : step3Mask cexZero 0 j = true := by
  have hrt : cexZero.ratioThresh = (0 : ℝ) := rfl
  have h : step3Mask cexZero 0 j = labelMaskOf cexZero 0 j := by
    simp only [step3Mask, hrt]
    rw [if_neg (lt_irrefl (0 : ℝ))]
  rw [h]
  simp [labelMaskOf, cexZero, cexBase]

/-- The 1x2 region of the counterexample image. -/
theorem cex_region : gridRegion cexBase.m cexBase.n = {(0, 0), (0, 1)} := by
  decide

/-- With the ratio stage on, no label is wholly excluded: pixel (0,0) of
cell 1 survives. -/
theorem cex_excluded : excludedRatioLabels cexBase = ∅ := by
  unfold excludedRatioLabels
  rw [if_pos (by norm_num [cexBase] : (0 : ℝ) < cexBase.ratioThresh)]
  have himg : ((gridRegion cexBase.m cexBase.n).image
      fun p => cexBase.labels p.1 p.2) = {1} := by decide
  rw [himg, Finset.filter_singleton, if_neg]
  intro hc
  have h1 := hc.2 (0, 0) (by decide) rfl
  rw [cex_step3_00] at h1
  exact Bool.noConfusion h1

/-- With the ratio stage off, the excluded-label set is empty by
construction. -/
theorem cex_excluded_zero : excludedRatioLabels cexZero = ∅ := by
  unfold excludedRatioLabels
  rw [if_neg]
  exact lt_irrefl (0 : ℝ)

/-- Provisional FRET/Donor efficiency at pixel (0,0): 5 percent. -/
theorem cex_eff_00 : calculate_fret_efficiency cexBase.fret cexBase.donor
    cexBase.acceptor (cexBase.formulas.headD "FRET/Donor") 0 0 =
    some 5 := by
  simp only [calculate_fret_efficiency, calcEffPixel, npDivWhere, cexBase]
  norm_num

/-- Provisional FRET/Donor efficiency at pixel (0,1): 50 percent. -/
theorem cex_eff_01 : calculate_fret_efficiency cexBase.fret cexBase.donor
    cexBase.acceptor (cexBase.formulas.headD "FRET/Donor") 0 1 =
    some 50 := by
  simp only [calculate_fret_efficiency, calcEffPixel, npDivWhere, cexBase]
  norm_num

/-- Masked provisional map, ratio stage on: (0,0) keeps its value 5. -/
theorem cex_temp_00 : maskedTempEff cexBase 0 0 = some 5 := by
  simp only [maskedTempEff, cex_step3_00]
  simpa using cex_eff_00

/-- Masked provisional map, ratio stage on: (0,1) is masked to 0. -/
theorem cex_temp_01 : maskedTempEff cexBase 0 1 = some 0 := by
  simp [maskedTempEff, cex_step3_01]

/-- Masked provisional map, ratio stage off: (0,0) keeps its value 5. -/
theorem cex_temp_zero_00 : maskedTempEff cexZero 0 0 = some 5 := by
  simp only [maskedTempEff, cex_step3_zero]
  have : calculate_fret_efficiency cexZero.fret cexZero.donor
      cexZero.acceptor (cexZero.formulas.headD "FRET/Donor") 0 0 =
      some 5 := cex_eff_00
  simpa using this

/-- Masked provisional map, ratio stage off: (0,1) keeps its value 50. -/
theorem cex_temp_zero_01 : maskedTempEff cexZero 0 1 = some 50 := by
  simp only [maskedTempEff, cex_step3_zero]
  have : calculate_fret_efficiency cexZero.fret cexZero.donor
      cexZero.acceptor (cexZero.formulas.headD "FRET/Donor") 0 1 =
      some 50 := cex_eff_01
  simpa using this

/-- Ratio stage on: only pixel (0,0) of cell 1 qualifies for the band
mean (pixel (0,1) was masked to 0). -/
theorem cex_qual : cellQualifying cexBase 1 = {(0, 0)} := by
  have hc0 : cexBase.labels 0 0 = 1 ∧
      qualPosR (maskedTempEff cexBase 0 0) = true := by
    refine ⟨rfl, ?_⟩
    rw [cex_temp_00]
    simp only [qualPosR]
    norm_num
  have hc1 : ¬(cexBase.labels 0 1 = 1 ∧
      qualPosR (maskedTempEff cexBase 0 1) = true) := by
    rintro ⟨-, hq⟩
    rw [cex_temp_01] at hq
    simp only [qualPosR] at hq
    norm_num at hq
  unfold cellQualifying
  rw [cex_region, Finset.filter_insert, if_pos hc0,
    Finset.filter_singleton, if_neg hc1]
  decide

/-- Ratio stage on: cell 1's band mean is 5, inside the band. -/
theorem cex_mean : cellMeanEff cexBase 1 = 5 := by
  unfold cellMeanEff
  rw [cex_qual, Finset.sum_singleton, cex_temp_00]
  norm_num

/-- Ratio stage on: cell 1 is not band-excluded. -/
theorem cex_band : cellBandExcluded cexBase 1 = false := by
  unfold cellBandExcluded
  rw [cex_mean, cex_excluded]
  have h1 : decide (cellMeanEff cexBase 1 < cexBase.cellLower) = false ∨
      True := Or.inr trivial
  simp only [cexBase]
  norm_num

/-- Ratio stage off: both pixels of cell 1 qualify for the band mean. -/
theorem cex_qual_zero : cellQualifying cexZero 1 = {(0, 0), (0, 1)} := by
  have hreg : gridRegion cexZero.m cexZero.n = {(0, 0), (0, 1)} := by
    decide
  have hc0 : cexZero.labels 0 0 = 1 ∧
      qualPosR (maskedTempEff cexZero 0 0) = true := by
    refine ⟨rfl, ?_⟩
    rw [cex_temp_zero_00]
    simp only [qualPosR]
    norm_num
  have hc1 : cexZero.labels 0 1 = 1 ∧
      qualPosR (maskedTempEff cexZero 0 1) = true := by
    refine ⟨rfl, ?_⟩
    rw [cex_temp_zero_01]
    simp only [qualPosR]
    norm_num
  unfold cellQualifying
  rw [hreg, Finset.filter_insert, if_pos hc0,
    Finset.filter_singleton, if_pos hc1]

/-- Ratio stage off: cell 1's band mean is 27.5, above the upper band. -/
theorem cex_mean_zero : cellMeanEff cexZero 1 = 55 / 2 := by
  unfold cellMeanEff
  rw [cex_qual_zero]
  rw [Finset.sum_insert (by decide), Finset.sum_singleton,
    cex_temp_zero_00, cex_temp_zero_01]
  have hcard : ({(0, 0), (0, 1)} : Finset (ℕ × ℕ)).card = 2 := by decide
  rw [hcard]
  norm_num

/-- Ratio stage off: cell 1 is band-excluded (mean 27.5 > 10). -/
theorem cex_band_zero : cellBandExcluded cexZero 1 = true := by
  unfold cellBandExcluded
  rw [cex_mean_zero, cex_excluded_zero, cex_qual_zero]
  simp only [cexZero, cexBase]
  norm_num

/-- C2 counterexample: for the concrete input `cexBase`, pixel (0,0) is
included when the ratio stage is enabled (threshold 10) but excluded when
it is disabled (threshold 0, all other stages unchanged): disabling the
ratio filter lets pixel (0,1)'s 50%-efficiency into cell 1's band mean,
pushing it out of [0,10] so the whole cell — including pixel (0,0) — is
removed. Enabling a stage added a pixel, refuting pointwise
monotonicity. -/
theorem c2_counterexample :
    run_analysis_final_mask cexBase 0 0 = true ∧
    run_analysis_final_mask cexZero 0 0 = false ∧
    cexZero = { cexBase with ratioThresh := 0 } := by
  have hcb : cexBase.cellBandEnabled = true := rfl
  have hcz : cexZero.cellBandEnabled = true := rfl
  have hlb : cexBase.labels 0 0 = 1 := rfl
  have hlz : cexZero.labels 0 0 = 1 := rfl
  refine ⟨?_, ?_, rfl⟩
  · unfold run_analysis_final_mask
    rw [if_pos hcb, hlb, cex_step3_00, cex_band]
    rfl
  · unfold run_analysis_final_mask
    rw [if_pos hcz, hlz, cex_step3_zero, cex_band_zero]
    rfl

end FretTool











